import Mathlib

/-!
Verification of the Process Lineage Reconstruction & Forensic Classification
Engine (`ProcessTree.py`).  The Python source is shallowly embedded: the
`pid → record` dict becomes an insertion-ordered association list, Python
sets become duplicate-free lists built by `setInsert`, machine integers are
`Int`, regex extraction results are modelled as the `Option String` fields of
`Blob` (one per `re.search` in `load_csv_data`), and local-time formatting is
modelled at UTC.  Every definition is transcribed from the source; the few
definitions written from the specification's words instead are explicitly
marked `claim`/`spec` in their names and doc comments.
-/

namespace ProcessTree

/-- One parsed 4688 process-creation record (the value type of
`self.processes` in `load_csv_data`). -/
structure ProcessRecord where
  account_name : String
  creator_pid : String
  process_name : String
  full_path : String
  time_generated : Int
  cmdline : String
  elevation_type : String
  creator_name : String
deriving Repr, DecidableEq

/-- Python `str.strip()` (whitespace from both ends). -/
def pyStrip (s : String) : String :=
  String.mk (((s.data.dropWhile Char.isWhitespace).reverse.dropWhile Char.isWhitespace).reverse)

/-- Python `str.lower()` (ASCII case folding suffices for the data involved). -/
def pyLower (s : String) : String :=
  String.mk (s.data.map Char.toLower)

/-- `full_path.split('\\')[-1]`: the fragment after the last backslash. -/
def lastSeg (s : String) : String :=
  String.mk (s.data.foldl (fun acc c => if c == '\\' then [] else acc ++ [c]) [])

/-- Numeric value of a digit list (the digits are guaranteed by `isDigit`). -/
def digitsToNat (l : List Char) : Nat :=
  l.foldl (fun a c => a * 10 + (c.toNat - '0'.toNat)) 0

/-- Python `int(s)` on the strings reachable here (optional sign, digits);
`none` models the `ValueError` branch. -/
def pyIntParse (s : String) : Option Int :=
  let t := (pyStrip s).data
  match t with
  | '-' :: rest =>
      if !rest.isEmpty && rest.all (fun c => c.isDigit) then some (-(digitsToNat rest : Int)) else none
  | _ =>
      if !t.isEmpty && t.all (fun c => c.isDigit) then some ((digitsToNat t : Int)) else none

/-- Python `set.add` on a duplicate-free list model of a set. -/
def setInsert (l : List String) (x : String) : List String :=
  if l.contains x then l else l ++ [x]

/-- Whether `pat` occurs inside `hay` (Python's `pat in hay` on lists of
characters). -/
def subOccurs (pat : List Char) : List Char → Bool
  | [] => pat.isEmpty
  | c :: rest => pat.isPrefixOf (c :: rest) || subOccurs pat rest

/-- Python `pat in hay` for strings. -/
def strContainsSub (hay pat : String) : Bool :=
  subOccurs pat.data hay.data

/-- `self.suspicious_patterns`. -/
def suspicious_patterns : List String :=
  ["powershell", "cmd", "net", "whoami", "curl", "wget"]

/-- `self.network_patterns`. -/
def network_patterns : List String :=
  ["curl", "wget", "invoke-webrequest", "invoke-restmethod", "net use", "ftp"]

/-- `self.registry_patterns`. -/
def registry_patterns : List String :=
  ["reg add", "reg delete", "reg import"]

/-- Two-digit decimal rendering used by `strftime`. -/
def pad2 (n : Nat) : String :=
  if n < 10 then "0" ++ toString n else toString n

/-- `datetime.fromtimestamp(t)` floored to the hour and rendered `'%H:%M'`
(the minute is always `00` after flooring); modelled at UTC. -/
def hourFloorHHMM (t : Int) : String :=
  pad2 ((t % 86400) / 3600).toNat ++ ":00"

/-- Python dict assignment `d[k] = v`: overwrite in place or append. -/
def dictInsert : List (String × ProcessRecord) → String → ProcessRecord → List (String × ProcessRecord)
  | [], k, v => [(k, v)]
  | p :: rest, k, v => if p.1 == k then (k, v) :: rest else p :: dictInsert rest k v

/-- Python `k in d` for the record dict. -/
def dictContains (d : List (String × ProcessRecord)) (k : String) : Bool :=
  d.any (fun p => p.1 == k)

/-- Python `d[k]` (as an `Option`; every use site in the source has the key
present). -/
def dictLookup (d : List (String × ProcessRecord)) (k : String) : Option ProcessRecord :=
  (d.find? (fun p => p.1 == k)).map Prod.snd

/-- `self.lotl_binaries` (the static living-off-the-land binary list). -/
def lotl_binaries : List String :=
  ["addinutil.exe", "appinstaller.exe", "aspnet_compiler.exe", "at.exe", "atbroker.exe",
   "bash.exe", "bitsadmin.exe", "certoc.exe", "certreq.exe", "certutil.exe",
   "cipher.exe", "cmd.exe", "cmdkey.exe", "cmdl32.exe", "cmstp.exe",
   "colorcpl.exe", "computerdefaults.exe", "configsecuritypolicy.exe", "conhost.exe",
   "control.exe", "csc.exe", "cscript.exe", "customshellhost.exe", "datasvcutil.exe",
   "desktopimgdownldr.exe", "devicecredentialdeployment.exe", "dfsvc.exe", "diantz.exe",
   "diskshadow.exe", "dnscmd.exe", "esentutl.exe", "eventvwr.exe", "expand.exe",
   "explorer.exe", "extexport.exe", "extrac32.exe", "findstr.exe", "finger.exe",
   "fltmc.exe", "forfiles.exe", "fsutil.exe", "ftp.exe", "gpscript.exe",
   "hh.exe", "imewdbld.exe", "ie4uinit.exe", "iediagcmd.exe", "ieexec.exe",
   "ilasm.exe", "infdefaultinstall.exe", "installutil.exe", "jsc.exe", "ldifde.exe",
   "makecab.exe", "mavinject.exe", "microsoft.workflow.compiler.exe", "mmc.exe",
   "mpcmdrun.exe", "msbuild.exe", "msconfig.exe", "msdt.exe", "msedge.exe",
   "mshta.exe", "msiexec.exe", "netsh.exe", "ngen.exe", "odbcconf.exe",
   "offlinescannershell.exe", "onedrivestandaloneupdater.exe", "pcalua.exe", "pcwrun.exe",
   "pktmon.exe", "pnputil.exe", "presentationhost.exe", "print.exe", "printbrm.exe",
   "provlaunch.exe", "psr.exe", "rasautou.exe", "rdrleakdiag.exe", "reg.exe",
   "regasm.exe", "regedit.exe", "regini.exe", "register-cimprovider.exe", "regsvcs.exe",
   "regsvr32.exe", "replace.exe", "rpcping.exe", "rundll32.exe", "runonce.exe",
   "runscripthelper.exe", "sc.exe", "schtasks.exe", "scriptrunner.exe", "setres.exe",
   "settingsynchost.exe", "ssh.exe", "stordiag.exe", "syncappvpublishingserver.exe",
   "tar.exe", "ttdinject.exe", "tttracer.exe", "unregmp2.exe", "vbc.exe",
   "verclsid.exe", "wab.exe", "wbadmin.exe", "wbemtest.exe", "winget.exe",
   "wlrmdr.exe", "wmic.exe", "workfolders.exe", "wscript.exe", "wsreset.exe",
   "wuauclt.exe", "xwizard.exe", "msedge_proxy.exe", "msedgewebview2.exe", "wt.exe",
   "acccheckconsole.exe", "adplus.exe", "agentexecutor.exe", "appcert.exe", "appvlp.exe",
   "bginfo.exe", "cdb.exe", "coregen.exe", "createdump.exe", "csi.exe",
   "defaultpack.exe", "devinit.exe", "devtoolslauncher.exe", "dnx.exe", "dotnet.exe",
   "dsdbutil.exe", "dtutil.exe", "dump64.exe", "dumpminitool.exe", "dxcap.exe",
   "excel.exe", "fsi.exe", "fsianycpu.exe", "mftrace.exe", "microsoft.nodejstools.pressanykey.exe",
   "msaccess.exe", "msdeploy.exe", "msohtmed.exe", "mspub.exe", "msxsl.exe",
   "ntdsutil.exe", "openconsole.exe", "powerpnt.exe", "procdump.exe", "protocolhandler.exe",
   "rcsi.exe", "remote.exe", "sqldumper.exe", "sqlps.exe", "sqltoolsps.exe",
   "squirrel.exe", "te.exe", "teams.exe", "testwindowremoteagent.exe", "tracker.exe",
   "update.exe", "vsdiagnostics.exe", "vsiisexelauncher.exe", "visio.exe", "visualuiaverifynative.exe",
   "vslaunchbrowser.exe", "vshadow.exe", "vsjitdebugger.exe", "wfmformat.exe", "wfc.exe",
   "winproj.exe", "winword.exe", "wsl.exe", "devtunnel.exe", "vsls-agent.exe",
   "vstest.console.exe", "winfile.exe", "xsd.exe", "powershell.exe"]

/-! ## The log parser (`load_csv_data`, lines 524-595)

A `Blob` models one cell of the message column: the two literal-marker
containment tests and, for each of the eight `re.search` calls, the
`group(1)` result (`none` when the pattern did not match).  The regex engine
itself is outside the embedding; the claims under test concern the
qualify/skip/insert logic applied to the match results.  Cells that are
`NaN`/non-strings are skipped before this point and are not modelled. -/
structure Blob where
  has4688 : Bool
  hasCreatorSubject : Bool
  accountNameMatch : Option String
  newPidMatch : Option String
  creatorPidMatch : Option String
  processNameMatch : Option String
  timeMatch : Option String
  cmdlineMatch : Option String
  elevationMatch : Option String
  creatorNameMatch : Option String
deriving Repr, DecidableEq

/-- `"EventID=4688" not in message or "Creator Subject" not in message`,
negated: the blob passes the two literal-marker tests. -/
def blobQualifies (b : Blob) : Bool :=
  b.has4688 && b.hasCreatorSubject

/-- `all([account_name_match, new_pid_match, creator_pid_match,
process_name_match])`: the four required groups, when all present. -/
def blobGroups (b : Blob) : Option (String × String × String × String) :=
  match b.accountNameMatch, b.newPidMatch, b.creatorPidMatch, b.processNameMatch with
  | some a, some n, some c, some p => some (a, n, c, p)
  | _, _, _, _ => none

/-- The `try: time_int = int(time_generated) ...` ladder (lines 568-578):
`some t` when the parsed time is valid (parses, `0 < t ≤ 2147483647`) and
therefore feeds the running `min_time`/`max_time`; `none` when the blob does
not qualify, a required group is missing, or the time normalizes to `0`. -/
def blobTimeValid (b : Blob) : Option Int :=
  if !(blobQualifies b) then none
  else
    match blobGroups b with
    | none => none
    | some _ =>
      match pyIntParse (b.timeMatch.getD "0") with
      | none => none
      | some t =>
        if t ≤ 0 then none
        else if t < 0 || t > 2147483647 then none
        else some t

/-- The `ProcessRecord` built at lines 558-595 (fields exactly as assigned;
the stored `time_generated` is the normalized `time_int`). -/
def blobRecord (b : Blob) : ProcessRecord :=
  match blobGroups b with
  | none => ⟨"", "", "", "", 0, "", "", ""⟩
  | some (a0, _, c0, p0) =>
    let full_path := pyStrip p0
    { account_name := pyStrip a0
      creator_pid := pyStrip c0
      process_name := if full_path != "" then lastSeg full_path else "Unknown"
      full_path := if full_path != "" then full_path else "Unknown"
      time_generated := (blobTimeValid b).getD 0
      cmdline := match b.cmdlineMatch with | some c => pyLower (pyStrip c) | none => "Unknown"
      elevation_type := match b.elevationMatch with | some e => pyStrip e | none => "Unknown"
      creator_name := match b.creatorNameMatch with | some c => pyStrip c | none => "Unknown" }

/-- The new pid under which the record is inserted (`new_pid`). -/
def blobNewPid (b : Blob) : String :=
  match blobGroups b with
  | some (_, n, _, _) => pyStrip n
  | none => ""

/-- Claim C4's qualification predicate: both literal markers present, all
four required groups matched, and the stripped account name neither empty
nor `"-"`. -/
def blobEmits (b : Blob) : Bool :=
  blobQualifies b &&
  (match blobGroups b with
   | some (a0, _, _, _) => pyStrip a0 != "" && pyStrip a0 != "-"
   | none => false)

/-- Mutable state accumulated while iterating the message column
(`self.processes`, `self.all_usernames`, `self.min_time`, `self.max_time`;
`none` models the initial `float('inf')`/`float('-inf')`). -/
structure LoadAcc where
  processes : List (String × ProcessRecord)
  all_usernames : List String
  min_time : Option Int
  max_time : Option Int
deriving Repr, DecidableEq

/-- `min(self.min_time, t)` with `inf` as `none`. -/
def minI (o : Option Int) (t : Int) : Int :=
  match o with | none => t | some m => min m t

/-- `max(self.max_time, t)` with `-inf` as `none`. -/
def maxI (o : Option Int) (t : Int) : Int :=
  match o with | none => t | some m => max m t

/-- One iteration of the parsing loop (lines 524-595): skip on missing
markers or groups, update the running min/max for a valid time (this happens
BEFORE the account-name validation), then insert the record and account name
only if the account name is neither empty nor `"-"`. -/
def processBlob (acc : LoadAcc) (b : Blob) : LoadAcc :=
  if !(blobQualifies b) then acc
  else
    match blobGroups b with
    | none => acc
    | some (a0, n0, _, _) =>
      let acc1 :=
        match blobTimeValid b with
        | some t => { acc with min_time := some (minI acc.min_time t),
                               max_time := some (maxI acc.max_time t) }
        | none => acc
      if pyStrip a0 != "" && pyStrip a0 != "-" then
        { acc1 with
          all_usernames := setInsert acc1.all_usernames (pyStrip a0),
          processes := dictInsert acc1.processes (pyStrip n0) (blobRecord b) }
      else acc1

/-- `datetime(2025, 5, 14).timestamp()` (modelled at UTC). -/
def fallbackMinTime : Int := 1747180800

/-- `datetime(2025, 5, 14, 23, 59, 59).timestamp()` (modelled at UTC). -/
def fallbackMaxTime : Int := 1747180800 + 86399

/-- The dataset-level outputs of a successful `load_csv_data`. -/
structure LoadResult where
  processes : List (String × ProcessRecord)
  all_usernames : List String
  min_time : Int
  max_time : Int
  flagged_paths : List String
  slider_max : Int
deriving Repr, DecidableEq

/-- `load_csv_data` over the message-column blobs: parse every blob, add the
automatic LOTL flags, apply the fixed-day fallback when no valid time was
seen, and derive the slider range. -/
def loadCsvData (blobs : List Blob) : LoadResult :=
  let acc := blobs.foldl processBlob ⟨[], [], none, none⟩
  let flagged := acc.processes.foldl
    (fun fs pr =>
      if (lotl_binaries.map pyLower).contains (pyLower pr.2.process_name)
      then setInsert fs pr.2.full_path else fs) []
  let mm : Int × Int :=
    match acc.min_time, acc.max_time with
    | some m, some M => (m, M)
    | _, _ => (fallbackMinTime, fallbackMaxTime)
  let range_seconds := mm.2 - mm.1
  { processes := acc.processes
    all_usernames := acc.all_usernames
    min_time := mm.1
    max_time := mm.2
    flagged_paths := flagged
    slider_max := if range_seconds > 0 then range_seconds / 60 else 100 }

/-! ## The top-level record filter of `build_process_tree` (lines 765-777) -/

/-- `if filter_username and data["account_name"] != filter_username: continue`
(`None` and the empty string are falsy). -/
def passAccount : Option String → ProcessRecord → Bool
  | none, _ => true
  | some u, r => if u == "" then true else r.account_name == u

/-- `if time_from and data["time_generated"] < time_from: continue`
(`None` and `0` are falsy). -/
def passTimeFrom : Option Int → ProcessRecord → Bool
  | none, _ => true
  | some t, r => if t == 0 then true else decide (t ≤ r.time_generated)

/-- `if time_to and data["time_generated"] > time_to: continue`. -/
def passTimeTo : Option Int → ProcessRecord → Bool
  | none, _ => true
  | some t, r => if t == 0 then true else decide (r.time_generated ≤ t)

/-- `if self.selected_hour:` followed by the floored-hour `'%H:%M'`
comparison against `self.selected_hour`. -/
def passHour : Option String → ProcessRecord → Bool
  | none, _ => true
  | some h, r => if h == "" then true else hourFloorHHMM r.time_generated == h

/-- A record survives all four `continue` checks of the
`build_process_tree` loop. -/
def passesFilter (sh fu : Option String) (tf tt : Option Int) (r : ProcessRecord) : Bool :=
  passAccount fu r && passTimeFrom tf r && passTimeTo tt r && passHour sh r

/-- The filter predicate as the specification words it (claim C1):
`accountFilter` is "all" (`none`) or equal; `timeFrom`/`timeTo` unset or the
inclusive bound holds; `selectedHourOfDay` unset or the floored-hour `HH:MM`
string matches.  Written from the spec, to be compared with `passesFilter`. -/
def specPasses (sh fu : Option String) (tf tt : Option Int) (r : ProcessRecord) : Bool :=
  (match fu with | none => true | some u => r.account_name == u) &&
  (match tf with | none => true | some t => decide (t ≤ r.time_generated)) &&
  (match tt with | none => true | some t => decide (r.time_generated ≤ t)) &&
  (match sh with | none => true | some h => hourFloorHHMM r.time_generated == h)

/-! ## Statistics accumulation (`build_process_tree`, lines 754-792) -/

/-- The counters accumulated by the `build_process_tree` loop. -/
structure TreeStats where
  total_processes : Nat
  app_counts : List (String × Nat)
  unique_users : List String
  elevated_processes : Nat
  parent_processes : List String
  suspicious_commands : Nat
  network_commands : Nat
  registry_commands : Nat
  filtered_pids : List String
deriving Repr, DecidableEq

/-- `app_counts[app_name] = app_counts.get(app_name, 0) + 1`. -/
def bumpApp : List (String × Nat) → String → List (String × Nat)
  | [], k => [(k, 1)]
  | p :: rest, k => if p.1 == k then (p.1, p.2 + 1) :: rest else p :: bumpApp rest k

/-- All counter updates performed for one record that passed the filter. -/
def countRecord (acc : TreeStats) (pid : String) (data : ProcessRecord) : TreeStats :=
  { total_processes := acc.total_processes + 1
    app_counts := bumpApp acc.app_counts data.process_name
    unique_users := setInsert acc.unique_users data.account_name
    elevated_processes :=
      if ["TokenElevationTypeFull (3)", "TokenElevationTypeLimited (2)"].contains data.elevation_type
      then acc.elevated_processes + 1 else acc.elevated_processes
    parent_processes := setInsert acc.parent_processes data.creator_name
    suspicious_commands :=
      if suspicious_patterns.any (fun p => strContainsSub data.cmdline p)
      then acc.suspicious_commands + 1 else acc.suspicious_commands
    network_commands :=
      if network_patterns.any (fun p => strContainsSub data.cmdline p)
      then acc.network_commands + 1 else acc.network_commands
    registry_commands :=
      if registry_patterns.any (fun p => strContainsSub data.cmdline p)
      then acc.registry_commands + 1 else acc.registry_commands
    filtered_pids := acc.filtered_pids ++ [pid] }

/-- Zeroed accumulator (lines 754-762). -/
def initStats : TreeStats :=
  ⟨0, [], [], 0, [], 0, 0, 0, []⟩

/-- One iteration of the `build_process_tree` loop, statistics part. -/
def statsStep (sh fu : Option String) (tf tt : Option Int)
    (acc : TreeStats) (pr : String × ProcessRecord) : TreeStats :=
  if passesFilter sh fu tf tt pr.2 then countRecord acc pr.1 pr.2 else acc

/-- The statistics computed by `build_process_tree` over the record dict. -/
def buildStats (sh fu : Option String) (tf tt : Option Int)
    (procs : List (String × ProcessRecord)) : TreeStats :=
  procs.foldl (statsStep sh fu tf tt) initStats

/-- The same counters computed over an already-filtered record list. -/
def computeStats (l : List (String × ProcessRecord)) : TreeStats :=
  l.foldl (fun acc pr => countRecord acc pr.1 pr.2) initStats

/-- Sum of the per-application counts. -/
def sumCounts : List (String × Nat) → Nat
  | [] => 0
  | p :: rest => p.2 + sumCounts rest

/-! ## Forest construction (`build_process_tree` line 793 / `add_process_node`) -/

/-- `children[creator_pid].append(pid)` with dict-of-lists semantics. -/
def childAdd : List (String × List String) → String → String → List (String × List String)
  | [], k, pid => [(k, [pid])]
  | p :: rest, k, pid =>
      if p.1 == k then (p.1, p.2 ++ [pid]) :: rest else p :: childAdd rest k pid

/-- The `children` index built at the top of `build_process_tree`
(lines 747-752): creator pid mapped to its children in insertion order. -/
def childrenMap (procs : List (String × ProcessRecord)) : List (String × List String) :=
  procs.foldl (fun m pr => childAdd m pr.2.creator_pid pr.1) []

/-- `children.get(pid, [])`. -/
def childLookup (m : List (String × List String)) (k : String) : List String :=
  ((m.find? (fun p => p.1 == k)).map Prod.snd).getD []

/-- The per-child account check of `add_process_node` (lines 877-878):
`processes[child]["account_name"] == user_combo.currentText() or
currentText == "All Users"`. -/
def nodeAccountCheck (procs : List (String × ProcessRecord)) (cur c : String) : Bool :=
  match dictLookup procs c with
  | some r => r.account_name == cur || cur == "All Users"
  | none => false

/-- `add_process_node`: the pids attached in the subtree rooted at `pid`
(the node itself, then the subtrees of the account-checked children).
The Python recursion has no cycle guard, so the embedding is fuel-bounded;
on acyclic data any fuel larger than the dataset depth is exact. -/
def addProcessNode (procs : List (String × ProcessRecord))
    (children : List (String × List String)) (cur : String) :
    Nat → String → List String
  | 0, _ => []
  | fuel + 1, pid =>
      pid :: ((childLookup children pid).filter (fun c => nodeAccountCheck procs cur c)).flatMap
        (addProcessNode procs children cur fuel)

/-- `data["creator_pid"] not in self.processes` (line 793, also line 675). -/
def isRootRecord (procs : List (String × ProcessRecord)) (r : ProcessRecord) : Bool :=
  !(dictContains procs r.creator_pid)

/-- All pids attached to the displayed tree: the `build_process_tree` loop
calls `add_process_node` for every record that passed the filter and whose
creator pid is unresolved. -/
def displayedNodes (sh fu : Option String) (tf tt : Option Int) (cur : String)
    (fuel : Nat) (procs : List (String × ProcessRecord)) : List String :=
  (procs.filter (fun pr => passesFilter sh fu tf tt pr.2 && isRootRecord procs pr.2)).flatMap
    (fun pr => addProcessNode procs (childrenMap procs) cur fuel pr.1)

/-! ## Hourly histogram (`build_process_hist`, lines 657-732)

The pandas pipeline is embedded over the epoch integers that underlie the
hour buckets; the final `strftime` label rendering (presentation) is not
modelled.  A returned `([], [])` is the `update_plot([], [])` empty chart. -/

/-- `pd.Timestamp(...).floor('h')` on an epoch value (modelled at UTC). -/
def floorHour (t : Int) : Int := t / 3600 * 3600

/-- `pd.Timestamp(...).ceil('h')` on an epoch value (modelled at UTC). -/
def ceilHour (t : Int) : Int := if t % 3600 == 0 then t else floorHour t + 3600

/-- `pd.date_range(start, end, freq='h')`: every hour step from `a` to `b`
inclusive. -/
def hourRange (a b : Int) : List Int :=
  if b < a then []
  else (List.range (((b - a) / 3600).toNat + 1)).map (fun i => a + (i : Int) * 3600)

/-- One `groupby('hour').size()` increment on an hour-keyed count dict. -/
def bumpCount : List (Int × Nat) → Int → List (Int × Nat)
  | [], k => [(k, 1)]
  | p :: rest, k => if p.1 == k then (p.1, p.2 + 1) :: rest else p :: bumpCount rest k

/-- `reindex(..., fill_value=0)` lookup. -/
def countLookup (d : List (Int × Nat)) (k : Int) : Nat :=
  match d.find? (fun p => p.1 == k) with
  | some p => p.2
  | none => 0

/-- Lines 670-674: drop records with `time_generated <= 0` or
`> 2147483647` before anything else. -/
def histTimeValidList (procs : List (String × ProcessRecord)) : List (String × ProcessRecord) :=
  procs.filter (fun pr => !(pr.2.time_generated ≤ 0) && !(pr.2.time_generated > 2147483647))

/-- `if filter_username and filter_username != "All Users": df = df[...]`. -/
def histFilterAccount : Option String → List (String × ProcessRecord) → List (String × ProcessRecord)
  | none, l => l
  | some u, l =>
      if u != "" && u != "All Users" then l.filter (fun pr => pr.2.account_name == u) else l

/-- The fully filtered record list used for bucketing (lines 670-701). -/
def histFiltered (procs : List (String × ProcessRecord)) (fu : Option String)
    (tf tt : Int) : List (String × ProcessRecord) :=
  let df1 := histFilterAccount fu (histTimeValidList procs)
  let df2 := if tf != 0 then df1.filter (fun pr => decide (tf ≤ pr.2.time_generated)) else df1
  if tt != 0 then df2.filter (fun pr => decide (pr.2.time_generated ≤ tt)) else df2

/-- `build_process_hist`: bucket the filtered records by floored hour,
reindex over the hour range `floor(time_from) .. ceil(time_to)` with
zero fill; every empty intermediate stage short-circuits to an empty
chart. -/
def buildProcessHist (procs : List (String × ProcessRecord)) (fu : Option String)
    (tf tt : Int) : List Int × List Nat :=
  if procs.isEmpty then ([], [])
  else if (histTimeValidList procs).isEmpty then ([], [])
  else
    let df := histFiltered procs fu tf tt
    if df.isEmpty then ([], [])
    else
      let counts := df.foldl (fun d pr => bumpCount d (floorHour pr.2.time_generated)) []
      let buckets := hourRange (floorHour tf) (ceilHour tt)
      (buckets, buckets.map (fun b => countLookup counts b))

/-! ## Window state and `filter_tree` (lines 881-909) -/

/-- The six forensic-metric labels (as written by the UI update calls). -/
structure ForensicLabels where
  unique_users : Nat
  elevated_processes : Nat
  unique_parents : Nat
  suspicious_commands : Nat
  network_commands : Nat
  registry_commands : Nat
deriving Repr, DecidableEq

/-- The dataset-dependent window state touched by the embedded operations. -/
structure AppState where
  processes : List (String × ProcessRecord)
  all_usernames : List String
  min_time : Int
  max_time : Int
  flagged_paths : List String
  selected_hour : Option String
  start_value : Int
  end_value : Int
  slider_max : Int
  current_account : String
deriving Repr, DecidableEq

/-- The user-triggered operations relevant to the claims: manual flag and
unflag, the three filter controls, and a dataset load. -/
inductive UiOp where
  | flag (p : String)
  | unflag (p : String)
  | selectAccount (a : String)
  | setStartSlider (v : Int)
  | setEndSlider (v : Int)
  | selectHour (h : Option String)
  | load (blobs : List Blob)
deriving Repr, DecidableEq

/-- State effect of each operation: `flag_process` adds the path,
`unflag_process` discards it, the filter controls update only their own
field, and `load_csv_data` replaces the dataset (records, usernames, flags,
time window, sliders, account combo) while leaving `selected_hour` alone. -/
def applyOp (s : AppState) : UiOp → AppState
  | .flag p => { s with flagged_paths := setInsert s.flagged_paths p }
  | .unflag p => { s with flagged_paths := s.flagged_paths.filter (fun q => q != p) }
  | .selectAccount a => { s with current_account := a }
  | .setStartSlider v => { s with start_value := v }
  | .setEndSlider v => { s with end_value := v }
  | .selectHour h => { s with selected_hour := h }
  | .load blobs =>
      let L := loadCsvData blobs
      { s with processes := L.processes
               all_usernames := L.all_usernames
               min_time := L.min_time
               max_time := L.max_time
               flagged_paths := L.flagged_paths
               slider_max := L.slider_max
               start_value := 0
               end_value := L.slider_max
               current_account := "All Users" }

/-- The operations the spec calls filter changes (account, time range, hour
selection). -/
def isFilterChange : UiOp → Bool
  | .selectAccount _ => true
  | .setStartSlider _ => true
  | .setEndSlider _ => true
  | .selectHour _ => true
  | _ => false

/-- Outcome of one `filter_tree` call: early no-op on an empty dataset,
the invalid-range branch (with the stats rows, forensic labels and histogram
it writes), or a recomputation via `build_process_tree` with the derived
arguments. -/
inductive FilterResult where
  | noData : FilterResult
  | invalidRange (statsRows : List (String × String)) (labels : ForensicLabels)
      (hist : List Int × List Nat) : FilterResult
  | recompute (fu : Option String) (tf tt : Int) : FilterResult
deriving Repr, DecidableEq

/-- `filter_tree` (lines 881-909): return if no dataset; derive the time
bounds from the sliders; on `start_time > end_time` clear the stats to the
"Invalid time range" row, zero every forensic label and empty the histogram
without building anything; otherwise recompute with the derived filter. -/
def filterTree (s : AppState) : FilterResult :=
  if s.processes.isEmpty then .noData
  else
    let start_time := s.min_time + s.start_value * 60
    let end_time := s.min_time + s.end_value * 60
    if start_time > end_time then
      .invalidRange [("Invalid time range", "")] ⟨0, 0, 0, 0, 0, 0⟩ ([], [])
    else
      .recompute (if s.current_account != "All Users" then some s.current_account else none)
        start_time end_time

/-- `build_process_tree` reading its inputs from the window state
(`self.selected_hour`, `self.processes`). -/
def stateBuildStats (s : AppState) (fu : Option String) (tf tt : Option Int) : TreeStats :=
  buildStats s.selected_hour fu tf tt s.processes

/-! ### Basic lemmas about the statistics fold -/

theorem foldl_statsStep_filter (sh fu : Option String) (tf tt : Option Int) :
    ∀ (l : List (String × ProcessRecord)) (acc : TreeStats),
      l.foldl (statsStep sh fu tf tt) acc
        = (l.filter (fun pr => passesFilter sh fu tf tt pr.2)).foldl
            (fun acc pr => countRecord acc pr.1 pr.2) acc := by
  intro l
  induction l with
  | nil => intro acc; rfl
  | cons p rest ih =>
    intro acc
    by_cases h : passesFilter sh fu tf tt p.2 = true
    · simp [List.foldl, List.filter, h, statsStep, ih]
    · simp only [Bool.not_eq_true] at h
      simp [List.foldl, List.filter, h, statsStep, ih]

theorem buildStats_eq_computeStats (sh fu : Option String) (tf tt : Option Int)
    (procs : List (String × ProcessRecord)) :
    buildStats sh fu tf tt procs
      = computeStats (procs.filter (fun pr => passesFilter sh fu tf tt pr.2)) := by
  simp [buildStats, computeStats, foldl_statsStep_filter]

theorem sumCounts_bumpApp (d : List (String × Nat)) (k : String) :
    sumCounts (bumpApp d k) = sumCounts d + 1 := by
  induction d with
  | nil => rfl
  | cons p rest ih =>
    by_cases h : p.1 == k
    · simp [bumpApp, h, sumCounts]; omega
    · simp only [Bool.not_eq_true] at h
      simp [bumpApp, h, sumCounts, ih]; omega

theorem sumCounts_countRecord (acc : TreeStats) (pid : String) (data : ProcessRecord)
    (h : sumCounts acc.app_counts = acc.total_processes) :
    sumCounts (countRecord acc pid data).app_counts = (countRecord acc pid data).total_processes := by
  simp [countRecord, sumCounts_bumpApp, h]

theorem foldl_stats_sum_invariant (sh fu : Option String) (tf tt : Option Int) :
    ∀ (l : List (String × ProcessRecord)) (acc : TreeStats),
      sumCounts acc.app_counts = acc.total_processes →
      sumCounts (l.foldl (statsStep sh fu tf tt) acc).app_counts
        = (l.foldl (statsStep sh fu tf tt) acc).total_processes := by
  intro l
  induction l with
  | nil => intro acc h; exact h
  | cons p rest ih =>
    intro acc h
    simp only [List.foldl]
    apply ih
    unfold statsStep
    by_cases hp : passesFilter sh fu tf tt p.2 = true
    · simp [hp, sumCounts_countRecord acc p.1 p.2 h]
    · simp only [Bool.not_eq_true] at hp
      simp [hp, h]

theorem foldl_countRecord_pids :
    ∀ (l : List (String × ProcessRecord)) (acc : TreeStats),
      (l.foldl (fun acc pr => countRecord acc pr.1 pr.2) acc).filtered_pids
        = acc.filtered_pids ++ l.map Prod.fst := by
  intro l
  induction l with
  | nil => intro acc; simp
  | cons p rest ih =>
    intro acc
    simp only [List.foldl, List.map]
    rw [ih]
    simp [countRecord]

theorem computeStats_filtered_pids (l : List (String × ProcessRecord)) :
    (computeStats l).filtered_pids = l.map Prod.fst := by
  simp [computeStats, foldl_countRecord_pids, initStats]

/-! ### Running minimum / maximum of the valid blob times -/

/-- The running minimum as the parsing loop maintains it. -/
def runningMinO : Option Int → List Int → Option Int
  | o, [] => o
  | o, t :: ts => runningMinO (some (minI o t)) ts

/-- The running maximum as the parsing loop maintains it. -/
def runningMaxO : Option Int → List Int → Option Int
  | o, [] => o
  | o, t :: ts => runningMaxO (some (maxI o t)) ts

theorem runningMinO_isSome : ∀ (ts : List Int) (x : Int), ∃ y, runningMinO (some x) ts = some y := by
  intro ts
  induction ts with
  | nil => intro x; exact ⟨x, rfl⟩
  | cons t ts ih => intro x; exact ih (minI (some x) t)

theorem runningMaxO_isSome : ∀ (ts : List Int) (x : Int), ∃ y, runningMaxO (some x) ts = some y := by
  intro ts
  induction ts with
  | nil => intro x; exact ⟨x, rfl⟩
  | cons t ts ih => intro x; exact ih (maxI (some x) t)

theorem processBlob_min_time (acc : LoadAcc) (b : Blob) :
    (processBlob acc b).min_time
      = match blobTimeValid b with
        | none => acc.min_time
        | some t => some (minI acc.min_time t) := by
  by_cases hq : blobQualifies b
  · cases hg : blobGroups b with
    | none => simp [processBlob, blobTimeValid, hq, hg]
    | some g =>
      obtain ⟨a0, n0, c0, p0⟩ := g
      cases ht : blobTimeValid b with
      | none =>
        by_cases ha : (pyStrip a0 != "" && pyStrip a0 != "-") = true <;>
          simp [processBlob, hq, hg, ht, ha]
      | some t =>
        by_cases ha : (pyStrip a0 != "" && pyStrip a0 != "-") = true <;>
          simp [processBlob, hq, hg, ht, ha]
  · simp [processBlob, blobTimeValid, hq]

theorem processBlob_max_time (acc : LoadAcc) (b : Blob) :
    (processBlob acc b).max_time
      = match blobTimeValid b with
        | none => acc.max_time
        | some t => some (maxI acc.max_time t) := by
  by_cases hq : blobQualifies b
  · cases hg : blobGroups b with
    | none => simp [processBlob, blobTimeValid, hq, hg]
    | some g =>
      obtain ⟨a0, n0, c0, p0⟩ := g
      cases ht : blobTimeValid b with
      | none =>
        by_cases ha : (pyStrip a0 != "" && pyStrip a0 != "-") = true <;>
          simp [processBlob, hq, hg, ht, ha]
      | some t =>
        by_cases ha : (pyStrip a0 != "" && pyStrip a0 != "-") = true <;>
          simp [processBlob, hq, hg, ht, ha]
  · simp [processBlob, blobTimeValid, hq]

theorem foldl_processBlob_min (blobs : List Blob) :
    ∀ acc : LoadAcc,
      (blobs.foldl processBlob acc).min_time
        = runningMinO acc.min_time (blobs.filterMap blobTimeValid) := by
  induction blobs with
  | nil => intro acc; rfl
  | cons b rest ih =>
    intro acc
    simp only [List.foldl, List.filterMap_cons]
    cases ht : blobTimeValid b with
    | none =>
      rw [ih]
      have : (processBlob acc b).min_time = acc.min_time := by
        rw [processBlob_min_time]; simp [ht]
      rw [this]
    | some t =>
      rw [ih]
      have : (processBlob acc b).min_time = some (minI acc.min_time t) := by
        rw [processBlob_min_time]; simp [ht]
      rw [this, runningMinO]

theorem foldl_processBlob_max (blobs : List Blob) :
    ∀ acc : LoadAcc,
      (blobs.foldl processBlob acc).max_time
        = runningMaxO acc.max_time (blobs.filterMap blobTimeValid) := by
  induction blobs with
  | nil => intro acc; rfl
  | cons b rest ih =>
    intro acc
    simp only [List.foldl, List.filterMap_cons]
    cases ht : blobTimeValid b with
    | none =>
      rw [ih]
      have : (processBlob acc b).max_time = acc.max_time := by
        rw [processBlob_max_time]; simp [ht]
      rw [this]
    | some t =>
      rw [ih]
      have : (processBlob acc b).max_time = some (maxI acc.max_time t) := by
        rw [processBlob_max_time]; simp [ht]
      rw [this, runningMaxO]

/-! ### Histogram counting lemmas -/

theorem countLookup_cons (p : Int × Nat) (d : List (Int × Nat)) (b : Int) :
    countLookup (p :: d) b = if p.1 == b then p.2 else countLookup d b := by
  unfold countLookup
  cases h : (p.1 == b) <;> simp [List.find?, h]

theorem countLookup_bumpCount (d : List (Int × Nat)) (k b : Int) :
    countLookup (bumpCount d k) b = countLookup d b + (if k == b then 1 else 0) := by
  induction d with
  | nil =>
    by_cases h : (k == b) = true <;> simp [bumpCount, countLookup_cons, countLookup, h]
  | cons p rest ih =>
    by_cases hpk : (p.1 == k) = true
    · by_cases hpb : (p.1 == b) = true
      · have hkb : (k == b) = true := by
          rw [show k = p.1 from (eq_of_beq hpk).symm]
          exact hpb
        simp [bumpCount, hpk, countLookup_cons, hpb, hkb]
      · have hkb : ¬(k == b) = true := by
          intro hc
          apply hpb
          rw [show p.1 = k from eq_of_beq hpk, show k = b from eq_of_beq hc]
          exact beq_self_eq_true b
        simp [bumpCount, hpk, countLookup_cons, hpb, hkb]
    · by_cases hpb : (p.1 == b) = true
      · have hkb : ¬(k == b) = true := by
          intro hc
          apply hpk
          rw [show k = b from eq_of_beq hc]
          exact hpb
        simp [bumpCount, hpk, countLookup_cons, hpb, hkb]
      · simp [bumpCount, hpk, countLookup_cons, hpb, ih]

theorem countLookup_fold (l : List (String × ProcessRecord)) :
    ∀ (d : List (Int × Nat)) (b : Int),
      countLookup (l.foldl (fun d pr => bumpCount d (floorHour pr.2.time_generated)) d) b
        = countLookup d b + (l.filter (fun pr => floorHour pr.2.time_generated == b)).length := by
  induction l with
  | nil => intro d b; simp
  | cons p rest ih =>
    intro d b
    simp only [List.foldl, List.filter]
    by_cases h : (floorHour p.2.time_generated == b) = true
    · simp only [h, cond_true]
      rw [ih, countLookup_bumpCount]
      simp [h]
      omega
    · have h' : (floorHour p.2.time_generated == b) = false := by
        exact Bool.not_eq_true _ ▸ h
      simp only [h', cond_false]
      rw [ih, countLookup_bumpCount]
      simp [h']

theorem histFilterAccount_sub (fu : Option String) (l : List (String × ProcessRecord))
    (pr : String × ProcessRecord) (h : pr ∈ histFilterAccount fu l) : pr ∈ l := by
  cases fu with
  | none => exact h
  | some u =>
    simp only [histFilterAccount] at h
    by_cases hc : (u != "" && u != "All Users") = true
    · rw [if_pos hc] at h; exact (List.mem_filter.mp h).1
    · rw [if_neg hc] at h; exact h

theorem histFiltered_sub_valid (procs : List (String × ProcessRecord)) (fu : Option String)
    (tf tt : Int) (pr : String × ProcessRecord) (h : pr ∈ histFiltered procs fu tf tt) :
    pr ∈ histTimeValidList procs := by
  unfold histFiltered at h
  by_cases h3 : (tt != 0) = true
  · rw [if_pos h3] at h
    have h2 := (List.mem_filter.mp h).1
    by_cases h1 : (tf != 0) = true
    · rw [if_pos h1] at h2
      exact histFilterAccount_sub fu _ pr (List.mem_filter.mp h2).1
    · rw [if_neg h1] at h2
      exact histFilterAccount_sub fu _ pr h2
  · rw [if_neg h3] at h
    by_cases h1 : (tf != 0) = true
    · rw [if_pos h1] at h
      exact histFilterAccount_sub fu _ pr (List.mem_filter.mp h).1
    · rw [if_neg h1] at h
      exact histFilterAccount_sub fu _ pr h

theorem histFiltered_of_valid_nil (procs : List (String × ProcessRecord)) (fu : Option String)
    (tf tt : Int) (h : histTimeValidList procs = []) : histFiltered procs fu tf tt = [] := by
  cases hh : histFiltered procs fu tf tt with
  | nil => rfl
  | cons pr rest =>
    have : pr ∈ histTimeValidList procs :=
      histFiltered_sub_valid procs fu tf tt pr (hh ▸ List.mem_cons_self pr rest)
    rw [h] at this
    exact absurd this (List.not_mem_nil pr)

/-! ### Flag-set algebra -/

theorem mem_setInsert_self (l : List String) (x : String) : x ∈ setInsert l x := by
  unfold setInsert
  by_cases h : l.contains x = true
  · rw [if_pos h]; simpa using h
  · rw [if_neg h]; exact List.mem_append_right l (List.mem_singleton.mpr rfl)

theorem mem_setInsert_of_mem (l : List String) (x y : String) (h : x ∈ l) :
    x ∈ setInsert l y := by
  unfold setInsert
  by_cases hc : l.contains y = true
  · rw [if_pos hc]; exact h
  · rw [if_neg hc]; exact List.mem_append_left _ h

theorem not_mem_filter_ne_self (l : List String) (p : String) :
    p ∉ l.filter (fun q => q != p) := by
  intro h
  have := (List.mem_filter.mp h).2
  simp at this

theorem foldl_filterChange_flagged (ops : List UiOp) :
    ∀ s : AppState, (∀ op ∈ ops, isFilterChange op = true) →
      (ops.foldl applyOp s).flagged_paths = s.flagged_paths := by
  induction ops with
  | nil => intro s _; rfl
  | cons op rest ih =>
    intro s hops
    have hop : isFilterChange op = true := hops op (List.mem_cons_self op rest)
    have hrest : ∀ o ∈ rest, isFilterChange o = true :=
      fun o ho => hops o (List.mem_cons_of_mem op ho)
    simp only [List.foldl]
    rw [ih (applyOp s op) hrest]
    cases op with
    | flag p => simp [isFilterChange] at hop
    | unflag p => simp [isFilterChange] at hop
    | selectAccount a => rfl
    | setStartSlider v => rfl
    | setEndSlider v => rfl
    | selectHour h => rfl
    | load blobs => simp [isFilterChange] at hop

/-! ### Which filter state the spec predicate coincides with -/

theorem passesFilter_eq_specPasses (sh fu : Option String) (tf tt : Option Int)
    (hsh : sh ≠ some "") (hfu : fu ≠ some "") (htf : tf ≠ some 0) (htt : tt ≠ some 0)
    (r : ProcessRecord) :
    passesFilter sh fu tf tt r = specPasses sh fu tf tt r := by
  unfold passesFilter specPasses passAccount passTimeFrom passTimeTo passHour
  cases fu with
  | none => cases tf with
    | none => cases tt with
      | none => cases sh with
        | none => rfl
        | some h =>
          have : ¬(h == "") = true := by
            intro hc; exact hsh (by rw [eq_of_beq hc])
          simp [this]
      | some t =>
        have : ¬(t == 0) = true := by
          intro hc; exact htt (by rw [eq_of_beq hc])
        cases sh with
        | none => simp [this]
        | some h =>
          have h2 : ¬(h == "") = true := by
            intro hc; exact hsh (by rw [eq_of_beq hc])
          simp [this, h2]
    | some t =>
      have h1 : ¬(t == 0) = true := by
        intro hc; exact htf (by rw [eq_of_beq hc])
      cases tt with
      | none => cases sh with
        | none => simp [h1]
        | some h =>
          have h2 : ¬(h == "") = true := by
            intro hc; exact hsh (by rw [eq_of_beq hc])
          simp [h1, h2]
      | some t2 =>
        have h2 : ¬(t2 == 0) = true := by
          intro hc; exact htt (by rw [eq_of_beq hc])
        cases sh with
        | none => simp [h1, h2]
        | some h =>
          have h3 : ¬(h == "") = true := by
            intro hc; exact hsh (by rw [eq_of_beq hc])
          simp [h1, h2, h3]
  | some u =>
    have hu : ¬(u == "") = true := by
      intro hc; exact hfu (by rw [eq_of_beq hc])
    cases tf with
    | none => cases tt with
      | none => cases sh with
        | none => simp [hu]
        | some h =>
          have h2 : ¬(h == "") = true := by
            intro hc; exact hsh (by rw [eq_of_beq hc])
          simp [hu, h2]
      | some t =>
        have h2 : ¬(t == 0) = true := by
          intro hc; exact htt (by rw [eq_of_beq hc])
        cases sh with
        | none => simp [hu, h2]
        | some h =>
          have h3 : ¬(h == "") = true := by
            intro hc; exact hsh (by rw [eq_of_beq hc])
          simp [hu, h2, h3]
    | some t =>
      have h1 : ¬(t == 0) = true := by
        intro hc; exact htf (by rw [eq_of_beq hc])
      cases tt with
      | none => cases sh with
        | none => simp [hu, h1]
        | some h =>
          have h3 : ¬(h == "") = true := by
            intro hc; exact hsh (by rw [eq_of_beq hc])
          simp [hu, h1, h3]
      | some t2 =>
        have h2 : ¬(t2 == 0) = true := by
          intro hc; exact htt (by rw [eq_of_beq hc])
        cases sh with
        | none => simp [hu, h1, h2]
        | some h =>
          have h3 : ¬(h == "") = true := by
            intro hc; exact hsh (by rw [eq_of_beq hc])
          simp [hu, h1, h2, h3]

/-! ### Membership in the displayed forest -/

theorem mem_addProcessNode (procs : List (String × ProcessRecord))
    (children : List (String × List String)) (cur : String) :
    ∀ (fuel : Nat) (pid p : String),
      p ∈ addProcessNode procs children cur fuel pid →
      p = pid ∨ nodeAccountCheck procs cur p = true := by
  intro fuel
  induction fuel with
  | zero => intro pid p hp; simp [addProcessNode] at hp
  | succ n ih =>
    intro pid p hp
    simp only [addProcessNode, List.mem_cons, List.mem_flatMap] at hp
    rcases hp with h | ⟨c, hc, hrec⟩
    · exact Or.inl h
    · rcases List.mem_filter.mp hc with ⟨_, hcheck⟩
      rcases ih c p hrec with rfl | h
      · exact Or.inr hcheck
      · exact Or.inr h

theorem mem_displayedNodes (sh fu : Option String) (tf tt : Option Int) (cur : String)
    (fuel : Nat) (procs : List (String × ProcessRecord)) (p : String)
    (hp : p ∈ displayedNodes sh fu tf tt cur fuel procs) :
    (∃ r, (p, r) ∈ procs ∧ passesFilter sh fu tf tt r = true ∧ isRootRecord procs r = true)
    ∨ nodeAccountCheck procs cur p = true := by
  simp only [displayedNodes, List.mem_flatMap] at hp
  rcases hp with ⟨pr, hpr, hmem⟩
  rcases List.mem_filter.mp hpr with ⟨hin, hcond⟩
  rcases mem_addProcessNode procs (childrenMap procs) cur fuel pr.1 p hmem with rfl | h
  · left
    refine ⟨pr.2, hin, ?_, ?_⟩
    · exact (Bool.and_eq_true _ _ ▸ hcond).1
    · exact (Bool.and_eq_true _ _ ▸ hcond).2
  · exact Or.inr h

/-! ## Concrete datasets used to instantiate and to refute the claims -/

def c1wRec : ProcessRecord :=
  ⟨"alice", "0", "a.exe", "C:\\a.exe", 3700, "powershell -enc x", "TokenElevationTypeFull (3)", "services.exe"⟩

def c1wProcs : List (String × ProcessRecord) := [("1", c1wRec)]

def c2RootRec : ProcessRecord :=
  ⟨"alice", "0", "a.exe", "C:\\a.exe", 100, "x", "Unknown", "u"⟩

def c2ChildRec : ProcessRecord :=
  ⟨"alice", "100", "b.exe", "C:\\b.exe", 999999, "x", "Unknown", "u"⟩

def c2Procs : List (String × ProcessRecord) := [("100", c2RootRec), ("200", c2ChildRec)]

def c3EmptyState : AppState :=
  { processes := [], all_usernames := [], min_time := 0, max_time := 0,
    flagged_paths := [], selected_hour := none, start_value := 1, end_value := 0,
    slider_max := 100, current_account := "All Users" }

def c3wRec : ProcessRecord :=
  ⟨"alice", "0", "a.exe", "C:\\a.exe", 100, "x", "Unknown", "u"⟩

def c3wState : AppState :=
  { processes := [("1", c3wRec)], all_usernames := ["alice"], min_time := 100, max_time := 160,
    flagged_paths := [], selected_hour := none, start_value := 2, end_value := 1,
    slider_max := 1, current_account := "All Users" }

def c5Blob1 : Blob :=
  ⟨true, true, some "-", some "1", some "0", some "C:\\w.exe", some "50", none, none, none⟩

def c5Blob2 : Blob :=
  ⟨true, true, some "alice", some "2", some "0", some "C:\\w.exe", some "100", none, none, none⟩

def c5Blobs : List Blob := [c5Blob1, c5Blob2]

/-- The valid times present in the loaded pid-to-record mapping itself, as
claim C5 words it ("across the records of the loaded dataset"); written from
the claim for comparison with the source's computation. -/
def claimDatasetValidTimes (procs : List (String × ProcessRecord)) : List Int :=
  (procs.filter (fun pr =>
    decide (0 < pr.2.time_generated) && decide (pr.2.time_generated ≤ 2147483647))).map
    (fun pr => pr.2.time_generated)

/-- Claim C5's `minTime`: minimum valid time over the dataset records, with
the fixed fallback day when none exists. -/
def claimMinTime (procs : List (String × ProcessRecord)) : Int :=
  (runningMinO none (claimDatasetValidTimes procs)).getD fallbackMinTime

def c6wState : AppState :=
  { processes := [], all_usernames := [], min_time := 0, max_time := 0,
    flagged_paths := [], selected_hour := none, start_value := 0, end_value := 0,
    slider_max := 100, current_account := "All Users" }

def c6wOps : List UiOp :=
  [.selectAccount "bob", .selectHour (some "01:00"), .setStartSlider 1, .setEndSlider 5]

def c7xRec : ProcessRecord :=
  ⟨"bob", "0", "a.exe", "C:\\a.exe", 7200, "x", "Unknown", "u"⟩

def c7xProcs : List (String × ProcessRecord) := [("1", c7xRec)]

def c7wRec : ProcessRecord :=
  ⟨"alice", "0", "a.exe", "C:\\a.exe", 3700, "x", "Unknown", "u"⟩

def c7wProcs : List (String × ProcessRecord) := [("1", c7wRec)]

def c9Rec : ProcessRecord :=
  ⟨"alice", "7", "a.exe", "C:\\a.exe", 100, "x", "Unknown", "u"⟩

def c9Procs : List (String × ProcessRecord) := [("7", c9Rec)]

/-! ## The claims -/

/-- C1: for every loaded dataset and filter state, a record is counted in
the filtered subset (total, per-application counts, forensic counters, and
the filtered pid list) iff the spec's predicate holds: account "all" or
equal, `timeFrom`/`timeTo` unset or the inclusive bound holds, and the
hour-of-day `HH:MM` string (date ignored) unset or equal.  The hypotheses
record that a set filter value is never the falsy `0`/`""` (true of every
value the sliders, combo box and histogram clicks can produce). -/
theorem claim_C1_filter_predicate (sh fu : Option String) (tf tt : Option Int)
    (procs : List (String × ProcessRecord))
    (hsh : sh ≠ some "") (hfu : fu ≠ some "") (htf : tf ≠ some 0) (htt : tt ≠ some 0) :
    buildStats sh fu tf tt procs
      = computeStats (procs.filter (fun pr => specPasses sh fu tf tt pr.2))
    ∧ (buildStats sh fu tf tt procs).filtered_pids
      = (procs.filter (fun pr => specPasses sh fu tf tt pr.2)).map Prod.fst := by
  have hcong : procs.filter (fun pr => passesFilter sh fu tf tt pr.2)
      = procs.filter (fun pr => specPasses sh fu tf tt pr.2) := by
    apply List.filter_congr
    intro pr _
    exact passesFilter_eq_specPasses sh fu tf tt hsh hfu htf htt pr.2
  refine ⟨?_, ?_⟩
  · rw [buildStats_eq_computeStats, hcong]
  · rw [buildStats_eq_computeStats, hcong, computeStats_filtered_pids]

/-- Witness for C1 at a concrete dataset and filter. -/
theorem claim_C1_witness :
    ((some "01:00" : Option String) ≠ some "" ∧ (some "alice" : Option String) ≠ some ""
      ∧ (some 3600 : Option Int) ≠ some 0 ∧ (some 7200 : Option Int) ≠ some 0)
    ∧ (buildStats (some "01:00") (some "alice") (some 3600) (some 7200) c1wProcs
        = computeStats (c1wProcs.filter
            (fun pr => specPasses (some "01:00") (some "alice") (some 3600) (some 7200) pr.2))
      ∧ (buildStats (some "01:00") (some "alice") (some 3600) (some 7200) c1wProcs).filtered_pids
        = (c1wProcs.filter
            (fun pr => specPasses (some "01:00") (some "alice") (some 3600) (some 7200) pr.2)).map
            Prod.fst) :=
  ⟨⟨by decide, by decide, by decide, by decide⟩,
   claim_C1_filter_predicate (some "01:00") (some "alice") (some 3600) (some 7200) c1wProcs
     (by decide) (by decide) (by decide) (by decide)⟩

/-- C2 counterexample: the child `"200"` is attached to the displayed tree
(its parent `"100"` passed the filter and the per-node account check holds),
yet `"200"` itself fails the active time filter (`999999 ∉ [50, 200]`).  So
not every attached node has passed the full filter predicate: descent
re-checks only the account, never the time or hour parts. -/
theorem claim_C2_counterexample :
    displayedNodes none none (some 50) (some 200) "All Users" 3 c2Procs = ["100", "200"]
    ∧ passesFilter none none (some 50) (some 200) c2ChildRec = false
    ∧ dictLookup c2Procs "200" = some c2ChildRec := by decide

/-- C2 (amended): every node attached to the displayed tree is either a root
record that passed the full filter predicate (and whose creator pid is
unresolved), or a descendant that passed the per-node account check
(account equal to the current selector, or selector "All Users"); descendants
are not required to pass the time-range or hour parts of the filter. -/
theorem claim_C2_descent (sh fu : Option String) (tf tt : Option Int) (cur : String)
    (fuel : Nat) (procs : List (String × ProcessRecord)) (p : String)
    (hp : p ∈ displayedNodes sh fu tf tt cur fuel procs) :
    (∃ r, (p, r) ∈ procs ∧ passesFilter sh fu tf tt r = true ∧ isRootRecord procs r = true)
    ∨ nodeAccountCheck procs cur p = true :=
  mem_displayedNodes sh fu tf tt cur fuel procs p hp

/-- Witness for the amended C2 at the concrete tree. -/
theorem claim_C2_witness :
    ("200" ∈ displayedNodes none none (some 50) (some 200) "All Users" 3 c2Procs)
    ∧ ((∃ r, ("200", r) ∈ c2Procs
          ∧ passesFilter none none (some 50) (some 200) r = true
          ∧ isRootRecord c2Procs r = true)
       ∨ nodeAccountCheck c2Procs "All Users" "200" = true) :=
  ⟨by decide,
   claim_C2_descent none none (some 50) (some 200) "All Users" 3 c2Procs "200" (by decide)⟩

/-- C3 counterexample: on an empty dataset `filter_tree` returns at its
first line, so a filter evaluation whose derived start time exceeds its end
time reports nothing (no `InvalidRange`, no counter reset) instead of the
claimed `InvalidRange` condition. -/
theorem claim_C3_counterexample :
    c3EmptyState.min_time + c3EmptyState.start_value * 60
        > c3EmptyState.min_time + c3EmptyState.end_value * 60
    ∧ filterTree c3EmptyState = FilterResult.noData := by decide

/-- C3 (amended): on a NONEMPTY dataset, whenever the derived start time
exceeds the derived end time, `filter_tree` yields the invalid-range
outcome: the stats table holds only the "Invalid time range" row, all six
forensic counters are written as zero, the histogram is emptied, and no
recomputation (`recompute`, i.e. `build_process_tree`) happens, so no forest
is built. -/
theorem claim_C3_invalid_range (s : AppState) (hne : s.processes ≠ [])
    (hgt : s.min_time + s.start_value * 60 > s.min_time + s.end_value * 60) :
    filterTree s
      = FilterResult.invalidRange [("Invalid time range", "")] ⟨0, 0, 0, 0, 0, 0⟩ ([], []) := by
  unfold filterTree
  have h1 : s.processes.isEmpty = false := by
    cases h : s.processes with
    | nil => exact absurd h hne
    | cons a l => rfl
  simp [h1, hgt]

/-- Witness for the amended C3 at a concrete nonempty state. -/
theorem claim_C3_witness :
    (c3wState.processes ≠ []
      ∧ c3wState.min_time + c3wState.start_value * 60
          > c3wState.min_time + c3wState.end_value * 60)
    ∧ filterTree c3wState
        = FilterResult.invalidRange [("Invalid time range", "")] ⟨0, 0, 0, 0, 0, 0⟩ ([], []) :=
  ⟨⟨by decide, by decide⟩, claim_C3_invalid_range c3wState (by decide) (by decide)⟩

/-- C4: one parsing iteration inserts into the pid-to-record mapping exactly
when the blob holds both literal markers, all four required groups matched,
and the stripped account name is neither empty nor `"-"` — and then it
inserts the complete record under the stripped new pid; otherwise the
mapping is untouched (the blob is skipped silently: `processBlob` is total,
so no exception path exists, and no partial record ever appears). -/
theorem claim_C4_emit_iff (acc : LoadAcc) (b : Blob) :
    (processBlob acc b).processes
      = (if blobEmits b then dictInsert acc.processes (blobNewPid b) (blobRecord b)
         else acc.processes) := by
  by_cases hq : blobQualifies b
  · cases hg : blobGroups b with
    | none => simp [processBlob, blobEmits, hq, hg]
    | some g =>
      obtain ⟨a0, n0, c0, p0⟩ := g
      by_cases ha : (pyStrip a0 != "" && pyStrip a0 != "-") = true
      · cases ht : blobTimeValid b with
        | none => simp [processBlob, blobEmits, blobNewPid, hq, hg, ha, ht]
        | some t => simp [processBlob, blobEmits, blobNewPid, hq, hg, ha, ht]
      · cases ht : blobTimeValid b with
        | none => simp [processBlob, blobEmits, blobNewPid, hq, hg, ha, ht]
        | some t => simp [processBlob, blobEmits, blobNewPid, hq, hg, ha, ht]
  · simp [processBlob, blobEmits, hq]

/-- C5 counterexample: blob 1 has account name `"-"` (discarded from the
dataset) but a valid time `50`; blob 2 is kept with time `100`.  The
source's `min_time` is `50`, while the claim's "minimum valid time across
the records of the loaded dataset" is `100`. -/
theorem claim_C5_counterexample :
    (loadCsvData c5Blobs).min_time = 50
    ∧ claimMinTime (loadCsvData c5Blobs).processes = 100
    ∧ (loadCsvData c5Blobs).min_time ≠ claimMinTime (loadCsvData c5Blobs).processes := by decide

/-- C5 (amended): after a load, `min_time`/`max_time` are the running
min/max of the valid times (integer-parsed, `0 < t ≤ 2147483647`; anything
else normalizes to `0` and is excluded) of ALL qualifying blobs — including
blobs later discarded for an empty or `"-"` account name and records later
overwritten by pid reuse — not just of the records remaining in the dataset;
the fixed fallback day applies when no valid time was seen. -/
theorem claim_C5_minmax (blobs : List Blob) :
    (loadCsvData blobs).min_time
      = (runningMinO none (blobs.filterMap blobTimeValid)).getD fallbackMinTime
    ∧ (loadCsvData blobs).max_time
      = (runningMaxO none (blobs.filterMap blobTimeValid)).getD fallbackMaxTime := by
  have hmin := foldl_processBlob_min blobs ⟨[], [], none, none⟩
  have hmax := foldl_processBlob_max blobs ⟨[], [], none, none⟩
  unfold loadCsvData
  cases hts : blobs.filterMap blobTimeValid with
  | nil =>
    rw [hts] at hmin hmax
    simp only [runningMinO, runningMaxO] at hmin hmax
    simp [hmin, hmax, runningMinO, runningMaxO]
  | cons t ts =>
    rw [hts] at hmin hmax
    simp only [runningMinO, runningMaxO] at hmin hmax
    obtain ⟨y, hy⟩ := runningMinO_isSome ts (minI none t)
    obtain ⟨z, hz⟩ := runningMaxO_isSome ts (maxI none t)
    rw [hy] at hmin
    rw [hz] at hmax
    simp [hmin, hmax, runningMinO, runningMaxO, hy, hz]

/-- C6: after `flag_process(p)`, the path `p` is flagged; any sequence of
filter changes (account, time range, hour selection) leaves the whole flag
set unchanged, so `p` stays flagged; an explicit `unflag_process(p)` removes
it; and a new dataset load replaces the flag set with the automatic flags of
the new dataset alone, independent of any manual flags. -/
theorem claim_C6_flag_roundtrip (s : AppState) (p : String) (ops : List UiOp) (blobs : List Blob)
    (hops : ∀ op ∈ ops, isFilterChange op = true) :
    p ∈ (applyOp s (.flag p)).flagged_paths
    ∧ (ops.foldl applyOp (applyOp s (.flag p))).flagged_paths
        = (applyOp s (.flag p)).flagged_paths
    ∧ p ∈ (ops.foldl applyOp (applyOp s (.flag p))).flagged_paths
    ∧ p ∉ (applyOp (ops.foldl applyOp (applyOp s (.flag p))) (.unflag p)).flagged_paths
    ∧ (applyOp (ops.foldl applyOp (applyOp s (.flag p))) (.load blobs)).flagged_paths
        = (loadCsvData blobs).flagged_paths := by
  have h1 : p ∈ (applyOp s (.flag p)).flagged_paths := mem_setInsert_self _ p
  have h2 := foldl_filterChange_flagged ops (applyOp s (.flag p)) hops
  refine ⟨h1, h2, h2 ▸ h1, ?_, rfl⟩
  exact not_mem_filter_ne_self _ p

/-- Witness for C6 at a concrete state, path and filter-change sequence. -/
theorem claim_C6_witness :
    (∀ op ∈ c6wOps, isFilterChange op = true)
    ∧ ("C:\\x.exe" ∈ (applyOp c6wState (.flag "C:\\x.exe")).flagged_paths
      ∧ (c6wOps.foldl applyOp (applyOp c6wState (.flag "C:\\x.exe"))).flagged_paths
          = (applyOp c6wState (.flag "C:\\x.exe")).flagged_paths
      ∧ "C:\\x.exe" ∈ (c6wOps.foldl applyOp (applyOp c6wState (.flag "C:\\x.exe"))).flagged_paths
      ∧ "C:\\x.exe" ∉ (applyOp (c6wOps.foldl applyOp (applyOp c6wState (.flag "C:\\x.exe")))
          (.unflag "C:\\x.exe")).flagged_paths
      ∧ (applyOp (c6wOps.foldl applyOp (applyOp c6wState (.flag "C:\\x.exe")))
          (.load [])).flagged_paths = (loadCsvData []).flagged_paths) :=
  ⟨by decide, claim_C6_flag_roundtrip c6wState "C:\\x.exe" c6wOps [] (by decide)⟩

/-- C7 counterexample: with one record whose account fails the filter, the
filtered set is empty and `build_process_hist` produces the empty chart
`([], [])` — not the claimed zero-filled bucket range `[3600, 7200]` from
`floor(timeFrom)` to `ceil(timeTo)`; the bucket range is therefore NOT
independent of which buckets contain data. -/
theorem claim_C7_counterexample :
    buildProcessHist c7xProcs (some "alice") 3600 7200 = ([], [])
    ∧ hourRange (floorHour 3600) (ceilHour 7200) = [3600, 7200] := by decide

/-- C7 (amended): provided at least one record survives the exclusions and
the account/time filters, the histogram has exactly one bucket per hour from
`floor(timeFrom)` to `ceil(timeTo)` inclusive, each bucket counting the
surviving records whose time floors to it (hours with none are zero); and
every surviving record's time lies in `(0, 2147483647]` (the exclusion
happens before bucketing).  When nothing survives, the chart is empty. -/
theorem claim_C7_histogram (procs : List (String × ProcessRecord)) (fu : Option String)
    (tf tt : Int) (h : histFiltered procs fu tf tt ≠ []) :
    buildProcessHist procs fu tf tt
      = (hourRange (floorHour tf) (ceilHour tt),
         (hourRange (floorHour tf) (ceilHour tt)).map
           (fun b => ((histFiltered procs fu tf tt).filter
               (fun pr => floorHour pr.2.time_generated == b)).length))
    ∧ ∀ pr ∈ histFiltered procs fu tf tt,
        0 < pr.2.time_generated ∧ pr.2.time_generated ≤ 2147483647 := by
  constructor
  · have hvne : histTimeValidList procs ≠ [] := by
      intro hv
      exact h (histFiltered_of_valid_nil procs fu tf tt hv)
    have hpe : procs.isEmpty = false := by
      cases hp : procs with
      | nil => exact absurd (by rw [hp]; rfl) hvne
      | cons a l => rfl
    have hve : (histTimeValidList procs).isEmpty = false := by
      cases hv : histTimeValidList procs with
      | nil => exact absurd hv hvne
      | cons a l => rfl
    have hde : (histFiltered procs fu tf tt).isEmpty = false := by
      cases hd : histFiltered procs fu tf tt with
      | nil => exact absurd hd h
      | cons a l => rfl
    unfold buildProcessHist
    simp only [hpe, hve, hde, Bool.false_eq_true, if_false]
    congr 1
    apply List.map_congr_left
    intro b _
    rw [countLookup_fold]
    simp [countLookup]
  · intro pr hpr
    have hmem := histFiltered_sub_valid procs fu tf tt pr hpr
    have hcond := (List.mem_filter.mp hmem).2
    simp only [Bool.and_eq_true, Bool.not_eq_true', decide_eq_false_iff_not] at hcond
    exact ⟨by omega, by omega⟩

/-- Witness for the amended C7 at a concrete dataset. -/
theorem claim_C7_witness :
    (histFiltered c7wProcs none 3600 7200 ≠ [])
    ∧ (buildProcessHist c7wProcs none 3600 7200
        = (hourRange (floorHour 3600) (ceilHour 7200),
           (hourRange (floorHour 3600) (ceilHour 7200)).map
             (fun b => ((histFiltered c7wProcs none 3600 7200).filter
                 (fun pr => floorHour pr.2.time_generated == b)).length))
      ∧ ∀ pr ∈ histFiltered c7wProcs none 3600 7200,
          0 < pr.2.time_generated ∧ pr.2.time_generated ≤ 2147483647) :=
  ⟨by decide, claim_C7_histogram c7wProcs none 3600 7200 (by decide)⟩

/-- C8: the per-application counts of the stats summary always sum to the
total filtered count, for every dataset and filter combination. -/
theorem claim_C8_sum_counts (sh fu : Option String) (tf tt : Option Int)
    (procs : List (String × ProcessRecord)) :
    sumCounts (buildStats sh fu tf tt procs).app_counts
      = (buildStats sh fu tf tt procs).total_processes :=
  foldl_stats_sum_invariant sh fu tf tt procs initStats rfl

/-- C9 counterexample: a record whose `creator_pid` equals its own pid is
NOT treated as a potential root (`creator_pid not in self.processes` is
false, since the record itself is in the mapping), and with no filters
active it never appears in the displayed tree at all. -/
theorem claim_C9_counterexample :
    c9Rec.creator_pid = "7"
    ∧ isRootRecord c9Procs c9Rec = false
    ∧ displayedNodes none none none none "All Users" 5 c9Procs = [] := by decide

/-- C9 (amended): a record is treated as a potential root iff its
`creator_pid` is absent from the pid-to-record mapping; in particular a
self-referential record (creator pid equal to its own pid, which is present
as its own key) is NOT a root. -/
theorem claim_C9_roots (procs : List (String × ProcessRecord)) (pid : String)
    (r : ProcessRecord) (hmem : (pid, r) ∈ procs) :
    (dictContains procs r.creator_pid = false → isRootRecord procs r = true)
    ∧ (r.creator_pid = pid → isRootRecord procs r = false) := by
  constructor
  · intro h
    unfold isRootRecord
    rw [h]
    rfl
  · intro h
    unfold isRootRecord
    have hc : dictContains procs r.creator_pid = true := by
      unfold dictContains
      rw [List.any_eq_true]
      exact ⟨(pid, r), hmem, by rw [h]; exact beq_self_eq_true pid⟩
    rw [hc]
    rfl

/-- Witness for the amended C9 at the self-referential record. -/
theorem claim_C9_witness :
    (("7", c9Rec) ∈ c9Procs)
    ∧ ((dictContains c9Procs c9Rec.creator_pid = false → isRootRecord c9Procs c9Rec = true)
      ∧ (c9Rec.creator_pid = "7" → isRootRecord c9Procs c9Rec = false)) :=
  ⟨by decide, claim_C9_roots c9Procs "7" c9Rec (by decide)⟩

/-- C10: a dataset load replaces the record mapping, the username set and
the flag set with those of the new dataset, but leaves `selected_hour`
unchanged; consequently the first filter evaluation over the new dataset
still applies the previously selected `HH:MM` hour predicate (it filters by
`passesFilter` with the OLD `selected_hour`). -/
theorem claim_C10_load_keeps_hour (s : AppState) (blobs : List Blob) :
    (applyOp s (.load blobs)).processes = (loadCsvData blobs).processes
    ∧ (applyOp s (.load blobs)).all_usernames = (loadCsvData blobs).all_usernames
    ∧ (applyOp s (.load blobs)).flagged_paths = (loadCsvData blobs).flagged_paths
    ∧ (applyOp s (.load blobs)).selected_hour = s.selected_hour
    ∧ ∀ fu tf tt, stateBuildStats (applyOp s (.load blobs)) fu tf tt
        = computeStats ((loadCsvData blobs).processes.filter
            (fun pr => passesFilter s.selected_hour fu tf tt pr.2)) := by
  refine ⟨rfl, rfl, rfl, rfl, ?_⟩
  intro fu tf tt
  exact buildStats_eq_computeStats _ _ _ _ _

end ProcessTree
